import Mathlib

/-!
# Verification of the ESP32-S3 internal-flash MP3 player control core

Shallow embedding of `src/mp3_player/mp3_player.ino`.

* The file-store catalog is modelled as the ordered list of entry names the
  enumeration reports (`List String`); each query re-walks that list, exactly
  as the source re-opens the LittleFS root for every pass.
* Arduino `String::toLowerCase` / `endsWith` / `==` are ASCII byte-wise
  operations; they are modelled by `lowerStr` / `endsWithStr` / `=` over the
  underlying character lists (kernel-computable versions of Lean's
  `String.toLower` / `String.endsWith`).
* Machine integers: `millis()` timestamps and the elapsed-time bookkeeping are
  32-bit unsigned on the ESP32; sums and differences wrap modulo `2^32`.
* The volume level (`float`) is modelled with `ℚ`; all level arithmetic the
  sketch performs (±1 steps, clamping to `[0,20]`, save/restore, set to 0)
  is exact in IEEE single precision on this range, so `ℚ` is faithful for the
  stored levels.  `VOLUME_FACTOR` 3.95 is modelled as `79/20`.
-/

namespace MP3Player

/-- ASCII lower-casing of a string (Arduino `String::toLowerCase`),
character by character over the underlying list. -/
def lowerStr (s : String) : String := String.mk (s.data.map Char.toLower)

/-- Suffix test on strings (Arduino `String::endsWith`), over the
underlying character lists. -/
def endsWithStr (s suf : String) : Bool := suf.data.isSuffixOf s.data

/-- `normalizePath` from the sketch: enforce a leading path separator.
`s.data.head? = some '/'` models the sketch's `s[0] == '/'` (guarded by the
length check). -/
def normalizePath (s : String) : String :=
  if s.length = 0 then s
  else if s.data.head? = some '/' then s
  else "/" ++ s

/-- The media filter applied by every catalog walk: the normalized,
lower-cased entry name must end in `".mp3"`. -/
def isMP3Entry (n : String) : Bool :=
  endsWithStr (lowerStr (normalizePath n)) ".mp3"

/-- `getFirstMP3`: first pass over the catalog, returning the first media
entry (case-preserving, normalized), or `""` if none. -/
def getFirstMP3 : List String → String
  | [] => ""
  | n :: rest => if isMP3Entry n then normalizePath n else getFirstMP3 rest

/-- First pass of `getNextMP3`: walk the catalog with the `foundCurrent`
flag; once the current file has been seen, the next media entry is returned
(`some`), otherwise the pass falls through (`none`). -/
def nextScan (curLower : String) : Bool → List String → Option String
  | _, [] => none
  | found, n :: rest =>
    if isMP3Entry n then
      if found then some (normalizePath n)
      else if lowerStr (normalizePath n) = curLower then nextScan curLower true rest
      else nextScan curLower false rest
    else nextScan curLower found rest

/-- Wrap-around pass of `getNextMP3`: return the first media entry of the
catalog, unless its lower-cased name matches the current file, in which case
`""` (sole-file case).  This comparison is case-insensitive. -/
def wrapFirst (curLower : String) : List String → String
  | [] => ""
  | n :: rest =>
    if isMP3Entry n then
      if lowerStr (normalizePath n) = curLower then "" else normalizePath n
    else wrapFirst curLower rest

/-- `getNextMP3` from the sketch: forward pass for the entry after
`currentFile`, then wrap-around pass from the start. -/
def getNextMP3 (c : List String) (currentFile : String) : String :=
  match nextScan (lowerStr currentFile) false c with
  | some r => r
  | none => wrapFirst (lowerStr currentFile) c

/-- First pass of `getPreviousMP3`: walk the catalog remembering the last
media entry seen (`lastMP3` in the sketch) and stop at the current file.
Returns `(foundCurrent, lastMP3)`. -/
def prevScan (curLower : String) : String → List String → Bool × String
  | last, [] => (false, last)
  | last, n :: rest =>
    if isMP3Entry n then
      if lowerStr (normalizePath n) = curLower then (true, last)
      else prevScan curLower (normalizePath n) rest
    else prevScan curLower last rest

/-- Wrap-around pass of `getPreviousMP3`: the last media entry of the whole
catalog (`previous` in the sketch), with accumulator `acc`. -/
def lastMP3 : String → List String → String
  | acc, [] => acc
  | acc, n :: rest => if isMP3Entry n then lastMP3 (normalizePath n) rest else lastMP3 acc rest

/-- `getPreviousMP3` from the sketch.  Note that the sole-file check of the
wrap-around pass compares `previous == currentFile` case-SENSITIVELY (line
297 of the sketch), unlike every other name comparison. -/
def getPreviousMP3 (c : List String) (currentFile : String) : String :=
  let r := prevScan (lowerStr currentFile) "" c
  if r.1 = true ∧ r.2 ≠ "" then r.2
  else
    let previous := lastMP3 "" c
    if previous = currentFile then "" else previous

/-! ## Playback session, volume controller and control loop -/

/-- `VOLUME_MIN`/`VOLUME_MAX` clamping done by `constrain` inside
`setVolumeSafe` (Arduino `constrain(v, lo, hi)` = `v<lo ? lo : (v>hi ? hi : v)`). -/
def clampVol (v : ℚ) : ℚ :=
  if v < 0 then 0 else if v > 20 then 20 else v

/-- The perceptual gain mapping of `setVolumeSafe`:
normalize to `[0,1]`, square, scale by `VOLUME_FACTOR` (3.95 = 79/20). -/
def gainOf (v : ℚ) : ℚ := (v / 20) ^ 2 * (79 / 20)

/-- The mutable globals of the sketch that make up one playback session,
plus the two facts about the audio objects the control flow branches on
(`hasAudio`: the `mp3`/`file`/`out` pointers are allocated;
`running`: `mp3->isRunning()`). -/
structure PlayerState where
  currentFile : String
  inPause : Bool
  volumeLevel : ℚ
  previousVolumeLevel : ℚ
  isMute : Bool
  trackStartTime : Nat
  trackElapsedTime : Nat
  pausedPos : Nat
  hasAudio : Bool
  running : Bool
  gain : ℚ

/-- `setVolumeSafe(float &v)`: clamp `v` in place, compute the perceptual
gain, and apply it to the sink when one exists (`out != nullptr`).
Returns the clamped level (the by-reference write-back) and the new state. -/
def setVolumeSafe (v : ℚ) (s : PlayerState) : ℚ × PlayerState :=
  let v2 := clampVol v
  if s.hasAudio then (v2, { s with gain := gainOf v2 }) else (v2, s)

/-- `trackElapsedTime + millis() - trackStartTime` in 32-bit unsigned
arithmetic (the expression used both by `pauseTrack` and by the
previous-button handler). -/
def elapsedMs (s : PlayerState) (now : Nat) : Nat :=
  (s.trackElapsedTime + now + (2 ^ 32 - s.trackStartTime % 2 ^ 32)) % 2 ^ 32

/-- `startTrack(filename)`: early-return on the empty name; otherwise tear
down and recreate the audio objects, apply the current volume (the sink now
exists, so the gain is applied), start the decoder, and reset the elapsed
bookkeeping.  `currentFile` itself is assigned by the callers. -/
def startTrack (filename : String) (now : Nat) (s : PlayerState) : PlayerState :=
  if filename = "" then s
  else
    let r := setVolumeSafe s.volumeLevel { s with hasAudio := true }
    { r.2 with
      volumeLevel := r.1
      running := true
      trackStartTime := now
      trackElapsedTime := 0
      inPause := false }

/-- `pauseTrack()`: no-op unless the audio objects exist and the decoder is
running; otherwise record the byte position (`file->getPos()`, an external
input `pos`), stop the decoder, and fold `now - trackStartTime` into
`trackElapsedTime`. -/
def pauseTrack (now pos : Nat) (s : PlayerState) : PlayerState :=
  if !s.hasAudio then s
  else if s.running then
    { s with
      pausedPos := pos % 2 ^ 32
      running := false
      trackElapsedTime := elapsedMs s now
      trackStartTime := now
      inPause := true }
  else s

/-- `resumeTrack()`: no-op unless the audio objects exist; reopen the source,
seek to `pausedPos` (zeroing it when the seek fails, `seekOk`), and restart
the decoder when `mp3->begin` succeeds (`beginOk`). -/
def resumeTrack (seekOk beginOk : Bool) (now : Nat) (s : PlayerState) : PlayerState :=
  if !s.hasAudio then s
  else
    let s1 := if s.pausedPos > 0 && !seekOk then { s with pausedPos := 0 } else s
    if beginOk then { s1 with running := true, trackStartTime := now, inPause := false }
    else s1

/-- The audio-service step at the top of `loop()`: while playing and not
paused, run one decode step (`loopOk = mp3->loop()`); on stream exhaustion
stop the decoder and advance to `getNextMP3`, replaying the current track
when that query returns empty. -/
def serviceAudio (c : List String) (now : Nat) (loopOk : Bool) (s : PlayerState) : PlayerState :=
  if s.hasAudio && s.running then
    if !s.inPause then
      if !loopOk then
        let s1 := { s with running := false }
        let nx := getNextMP3 c s1.currentFile
        if nx = "" then startTrack s1.currentFile now s1
        else startTrack nx now { s1 with currentFile := nx }
      else s
    else s
  else s

/-- The previous-button branch of `loop()`: below the 5000 ms threshold go
to the previous catalog entry if there is one, otherwise restart the
current track. -/
def handlePrevious (c : List String) (now : Nat) (s : PlayerState) : PlayerState :=
  if elapsedMs s now < 5000 then
    let prev := getPreviousMP3 c s.currentFile
    if prev ≠ "" then startTrack prev now { s with currentFile := prev }
    else s
  else startTrack s.currentFile now s

/-- The play/pause-button branch of `loop()`. -/
def handlePlayPause (seekOk beginOk : Bool) (now pos : Nat) (s : PlayerState) : PlayerState :=
  if s.inPause then resumeTrack seekOk beginOk now s else pauseTrack now pos s

/-- The next-button branch of `loop()`. -/
def handleNext (c : List String) (now : Nat) (s : PlayerState) : PlayerState :=
  let nx := getNextMP3 c s.currentFile
  if nx = "" then s else startTrack nx now { s with currentFile := nx }

/-- The volume-decrease-button branch of `loop()`: restore the pre-mute
level first when muted, then step down and re-apply through `setVolumeSafe`. -/
def handleVolDown (s : PlayerState) : PlayerState :=
  let s1 := if s.isMute then { s with volumeLevel := s.previousVolumeLevel, isMute := false } else s
  let r := setVolumeSafe (s1.volumeLevel - 1) s1
  { r.2 with volumeLevel := r.1 }

/-- The mute-button branch of `loop()`: toggle between storing the pre-mute
level with the level forced to 0, and restoring the stored level. -/
def handleMuteBtn (s : PlayerState) : PlayerState :=
  let s1 :=
    if s.isMute then { s with volumeLevel := s.previousVolumeLevel, isMute := false }
    else { s with previousVolumeLevel := s.volumeLevel, volumeLevel := 0, isMute := true }
  let r := setVolumeSafe s1.volumeLevel s1
  { r.2 with volumeLevel := r.1 }

/-- The volume-increase-button branch of `loop()`. -/
def handleVolUp (s : PlayerState) : PlayerState :=
  let s1 := if s.isMute then { s with volumeLevel := s.previousVolumeLevel, isMute := false } else s
  let r := setVolumeSafe (s1.volumeLevel + 1) s1
  { r.2 with volumeLevel := r.1 }

/-- The seven debounced `buttonPressed` flags, in the order of
`pinsButtons`: previous, play/pause, next, record, volume-down, mute,
volume-up. -/
structure ButtonFlags where
  btnPrevious : Bool
  btnPlayPause : Bool
  btnNext : Bool
  btnRec : Bool
  btnVolDown : Bool
  btnMute : Bool
  btnVolUp : Bool

/-- Flag lookup by button index (0 = previous … 6 = volume-up), mirroring
the `buttonPressed` array. -/
def flagAt (fl : ButtonFlags) : Nat → Bool
  | 0 => fl.btnPrevious
  | 1 => fl.btnPlayPause
  | 2 => fl.btnNext
  | 3 => fl.btnRec
  | 4 => fl.btnVolDown
  | 5 => fl.btnMute
  | 6 => fl.btnVolUp
  | _ => false

/-- The `if / else if` chain of `loop()` that drains at most one pending
button event: the first set flag in index order is cleared and its branch
runs; all other flags are left untouched. -/
def consumeButtons (c : List String) (seekOk beginOk : Bool) (now pos : Nat)
    (fl : ButtonFlags) (s : PlayerState) : ButtonFlags × PlayerState :=
  if fl.btnPrevious = true then ({ fl with btnPrevious := false }, handlePrevious c now s)
  else if fl.btnPlayPause = true then
    ({ fl with btnPlayPause := false }, handlePlayPause seekOk beginOk now pos s)
  else if fl.btnNext = true then ({ fl with btnNext := false }, handleNext c now s)
  else if fl.btnRec = true then ({ fl with btnRec := false }, s)
  else if fl.btnVolDown = true then ({ fl with btnVolDown := false }, handleVolDown s)
  else if fl.btnMute = true then ({ fl with btnMute := false }, handleMuteBtn s)
  else if fl.btnVolUp = true then ({ fl with btnVolUp := false }, handleVolUp s)
  else (fl, s)

/-- One full iteration of `loop()`: the audio-service step followed by the
button-event drain. -/
def loopIteration (c : List String) (loopOk seekOk beginOk : Bool) (now pos : Nat)
    (fl : ButtonFlags) (s : PlayerState) : ButtonFlags × PlayerState :=
  consumeButtons c seekOk beginOk now pos fl (serviceAudio c now loopOk s)

/-- A concrete, fully specified session state used to instantiate theorems
with hypotheses. -/
def sampleState : PlayerState :=
  { currentFile := "/b.mp3"
    inPause := false
    volumeLevel := 10
    previousVolumeLevel := 0
    isMute := false
    trackStartTime := 0
    trackElapsedTime := 0
    pausedPos := 0
    hasAudio := true
    running := true
    gain := 1 }

/-! ## Derived views used by the proofs

`mediaEntries c` is the sequence e₁ … e_N of media entries of the catalog in
enumeration order (normalized, case-preserving) — the sequence the spec's
enumeration properties quantify over.  The `…InEs` functions mirror the
catalog passes on that media sequence. -/

/-- The media entries of a catalog in enumeration order, as the returned
identifiers (normalized, case-preserving). -/
def mediaEntries (c : List String) : List String :=
  (c.filter (fun n => isMP3Entry n)).map normalizePath

/-- `nextScan` with the flag still unset, viewed on the media sequence. -/
def nextInEs (cur : String) : List String → Option String
  | [] => none
  | e :: rest => if lowerStr e = cur then rest.head? else nextInEs cur rest

/-- `wrapFirst` viewed on the media sequence. -/
def wrapInEs (cur : String) : List String → String
  | [] => ""
  | e :: _ => if lowerStr e = cur then "" else e

/-- `prevScan` viewed on the media sequence. -/
def prevInEs (cur : String) : String → List String → Bool × String
  | last, [] => (false, last)
  | last, e :: rest => if lowerStr e = cur then (true, last) else prevInEs cur e rest

/-- `lastMP3` viewed on the media sequence: last element with default. -/
def lastD : String → List String → String
  | acc, [] => acc
  | _, e :: rest => lastD e rest

/-- The flag effect of one pass through the `if / else if` chain of
`loop()`: clear the first set flag in priority order (and nothing else). -/
def clearFirst (fl : ButtonFlags) : ButtonFlags :=
  if fl.btnPrevious = true then { fl with btnPrevious := false }
  else if fl.btnPlayPause = true then { fl with btnPlayPause := false }
  else if fl.btnNext = true then { fl with btnNext := false }
  else if fl.btnRec = true then { fl with btnRec := false }
  else if fl.btnVolDown = true then { fl with btnVolDown := false }
  else if fl.btnMute = true then { fl with btnMute := false }
  else if fl.btnVolUp = true then { fl with btnVolUp := false }
  else fl

/-! ## Volume controller lemmas -/

lemma clampVol_nonneg (v : ℚ) : 0 ≤ clampVol v := by
  unfold clampVol; split_ifs <;> linarith

lemma clampVol_le (v : ℚ) : clampVol v ≤ 20 := by
  unfold clampVol; split_ifs <;> linarith

lemma clampVol_of_mem (v : ℚ) (h0 : 0 ≤ v) (h20 : v ≤ 20) : clampVol v = v := by
  unfold clampVol; split_ifs <;> linarith

lemma handleVolUp_volumeLevel (s : PlayerState) :
    (handleVolUp s).volumeLevel =
      clampVol ((if s.isMute then s.previousVolumeLevel else s.volumeLevel) + 1) := by
  cases hm : s.isMute <;> cases hA : s.hasAudio <;>
    simp [handleVolUp, setVolumeSafe, hm, hA]

lemma handleVolDown_volumeLevel (s : PlayerState) :
    (handleVolDown s).volumeLevel =
      clampVol ((if s.isMute then s.previousVolumeLevel else s.volumeLevel) - 1) := by
  cases hm : s.isMute <;> cases hA : s.hasAudio <;>
    simp [handleVolDown, setVolumeSafe, hm, hA]

lemma handleVolUp_isMute (s : PlayerState) : (handleVolUp s).isMute = false := by
  cases hm : s.isMute <;> cases hA : s.hasAudio <;>
    simp [handleVolUp, setVolumeSafe, hm, hA]

lemma handleVolDown_isMute (s : PlayerState) : (handleVolDown s).isMute = false := by
  cases hm : s.isMute <;> cases hA : s.hasAudio <;>
    simp [handleVolDown, setVolumeSafe, hm, hA]

lemma handleMuteBtn_of_unmuted (s : PlayerState) (hm : s.isMute = false) :
    (handleMuteBtn s).previousVolumeLevel = s.volumeLevel
    ∧ (handleMuteBtn s).volumeLevel = 0
    ∧ (handleMuteBtn s).isMute = true
    ∧ (handleMuteBtn s).gain = (if s.hasAudio then 0 else s.gain) := by
  unfold handleMuteBtn setVolumeSafe
  have hc : clampVol 0 = 0 := by unfold clampVol; norm_num
  have hg : gainOf 0 = 0 := by unfold gainOf; norm_num
  simp only [hm]
  cases hA : s.hasAudio <;> simp [hA, hc, hg]

lemma handleMuteBtn_of_muted (s : PlayerState) (hm : s.isMute = true) :
    (handleMuteBtn s).volumeLevel = clampVol s.previousVolumeLevel
    ∧ (handleMuteBtn s).isMute = false := by
  unfold handleMuteBtn setVolumeSafe
  simp only [hm]
  cases hA : s.hasAudio <;> simp [hA]

/-! ## Claim theorems: volume and session no-ops -/

/-- C7.  After any volume operation (volume-up, volume-down, mute/unmute) the
stored user-facing level lies in the closed range `[0, 20]` — `setVolumeSafe`
silently clamps and rewrites the stored level — and the ends are fixpoints:
an unmuted level 20 stays at 20 under volume-up, an unmuted level 0 stays at
0 under volume-down. -/
theorem c7_volume_clamped (s : PlayerState) :
    (0 ≤ (handleVolUp s).volumeLevel ∧ (handleVolUp s).volumeLevel ≤ 20)
    ∧ (0 ≤ (handleVolDown s).volumeLevel ∧ (handleVolDown s).volumeLevel ≤ 20)
    ∧ (0 ≤ (handleMuteBtn s).volumeLevel ∧ (handleMuteBtn s).volumeLevel ≤ 20)
    ∧ (s.isMute = false → s.volumeLevel = 20 → (handleVolUp s).volumeLevel = 20)
    ∧ (s.isMute = false → s.volumeLevel = 0 → (handleVolDown s).volumeLevel = 0) := by
  refine ⟨⟨?_, ?_⟩, ⟨?_, ?_⟩, ⟨?_, ?_⟩, ?_, ?_⟩
  · rw [handleVolUp_volumeLevel]; exact clampVol_nonneg _
  · rw [handleVolUp_volumeLevel]; exact clampVol_le _
  · rw [handleVolDown_volumeLevel]; exact clampVol_nonneg _
  · rw [handleVolDown_volumeLevel]; exact clampVol_le _
  · cases hm : s.isMute
    · rw [(handleMuteBtn_of_unmuted s hm).2.1]
    · rw [(handleMuteBtn_of_muted s hm).1]; exact clampVol_nonneg _
  · cases hm : s.isMute
    · rw [(handleMuteBtn_of_unmuted s hm).2.1]; norm_num
    · rw [(handleMuteBtn_of_muted s hm).1]; exact clampVol_le _
  · intro hm h20
    rw [handleVolUp_volumeLevel, hm, h20]
    unfold clampVol; norm_num
  · intro hm h0
    rw [handleVolDown_volumeLevel, hm, h0]
    unfold clampVol; norm_num

/-- Witness for C7 at a concrete state: from unmuted level 20, a volume-up
press leaves the level at 20; from unmuted level 0, a volume-down press
leaves it at 0. -/
theorem c7_witness :
    (handleVolUp { sampleState with volumeLevel := 20 }).volumeLevel = 20
    ∧ (handleVolDown { sampleState with volumeLevel := 0 }).volumeLevel = 0 :=
  ⟨(c7_volume_clamped { sampleState with volumeLevel := 20 }).2.2.2.1 rfl rfl,
   (c7_volume_clamped { sampleState with volumeLevel := 0 }).2.2.2.2 rfl rfl⟩

/-- C8.  Mute followed by unmute is a round trip on the volume level: from
any unmuted state with level `v ∈ [0,20]`, the mute press stores `v` as the
pre-mute level, forces the stored level (and, when a sink is bound, the
output gain) to zero and sets the muted flag; a second mute press restores
the level to exactly `v` and clears the flag. -/
theorem c8_mute_roundtrip (s : PlayerState) (hm : s.isMute = false)
    (h0 : 0 ≤ s.volumeLevel) (h20 : s.volumeLevel ≤ 20) :
    (handleMuteBtn s).previousVolumeLevel = s.volumeLevel
    ∧ (handleMuteBtn s).volumeLevel = 0
    ∧ (handleMuteBtn s).isMute = true
    ∧ (s.hasAudio = true → (handleMuteBtn s).gain = 0)
    ∧ (handleMuteBtn (handleMuteBtn s)).volumeLevel = s.volumeLevel
    ∧ (handleMuteBtn (handleMuteBtn s)).isMute = false := by
  obtain ⟨hprev, hvol, hmute, hgain⟩ := handleMuteBtn_of_unmuted s hm
  refine ⟨hprev, hvol, hmute, ?_, ?_, (handleMuteBtn_of_muted _ hmute).2⟩
  · intro hA; rw [hgain, if_pos hA]
  · rw [(handleMuteBtn_of_muted _ hmute).1, hprev]
    exact clampVol_of_mem _ h0 h20

/-- Witness for C8 at a concrete state: muting at level 10 stores 10 and
zeroes level and gain; muting again restores level 10. -/
theorem c8_witness :
    (handleMuteBtn sampleState).previousVolumeLevel = 10
    ∧ (handleMuteBtn sampleState).volumeLevel = 0
    ∧ (handleMuteBtn sampleState).isMute = true
    ∧ (handleMuteBtn sampleState).gain = 0
    ∧ (handleMuteBtn (handleMuteBtn sampleState)).volumeLevel = 10
    ∧ (handleMuteBtn (handleMuteBtn sampleState)).isMute = false := by
  obtain ⟨h1, h2, h3, h4, h5, h6⟩ :=
    c8_mute_roundtrip sampleState rfl (by norm_num [sampleState]) (by norm_num [sampleState])
  exact ⟨h1, h2, h3, h4 rfl, h5, h6⟩

/-- C9.  `startTrack` with an empty track identifier is a no-op: the state —
every session field, the audio objects, pause flag, timing fields, paused
offset and volume fields — is returned unchanged. -/
theorem c9_starttrack_empty_noop (now : Nat) (s : PlayerState) :
    startTrack "" now s = s := by
  unfold startTrack; simp

/-- C10.  A volume press while muted first restores the pre-mute level and
clears the muted flag, and only then applies the ±1 step: the resulting
level is the clamped `previousVolumeLevel ± 1`, one step relative to the
pre-mute level rather than relative to zero. -/
theorem c10_muted_step (s : PlayerState) (hm : s.isMute = true) :
    (handleVolUp s).isMute = false
    ∧ (handleVolUp s).volumeLevel = clampVol (s.previousVolumeLevel + 1)
    ∧ (handleVolDown s).isMute = false
    ∧ (handleVolDown s).volumeLevel = clampVol (s.previousVolumeLevel - 1) := by
  refine ⟨handleVolUp_isMute s, ?_, handleVolDown_isMute s, ?_⟩
  · rw [handleVolUp_volumeLevel, hm]; simp
  · rw [handleVolDown_volumeLevel, hm]; simp

/-- Witness for C10: muted with pre-mute level 10, a volume-up press yields
an unmuted level 11 (not 1), a volume-down press an unmuted level 9. -/
theorem c10_witness :
    (handleVolUp { sampleState with isMute := true, volumeLevel := 0,
                                    previousVolumeLevel := 10 }).volumeLevel = 11
    ∧ (handleVolDown { sampleState with isMute := true, volumeLevel := 0,
                                        previousVolumeLevel := 10 }).volumeLevel = 9 := by
  obtain ⟨-, h2, -, h4⟩ :=
    c10_muted_step { sampleState with isMute := true, volumeLevel := 0,
                                      previousVolumeLevel := 10 } rfl
  rw [h2, h4]
  constructor <;> · unfold clampVol; norm_num

/-! ## Claim theorems: previous-button policy and end-of-stream handling -/

/-- C4.  On a previous-button event with
`elapsed = trackElapsedTime + now - trackStartTime` (32-bit unsigned): below
5000 ms the catalog's previous track is started when one is returned and
nothing happens when the query returns empty; at or above 5000 ms the current
track is restarted from its beginning.  `elapsed = 4999` therefore takes the
catalog-previous branch and `elapsed = 5000` the restart-current branch. -/
theorem c4_previous_button_policy (c : List String) (now : Nat) (s : PlayerState) :
    (elapsedMs s now < 5000 → getPreviousMP3 c s.currentFile = "" →
        handlePrevious c now s = s)
    ∧ (elapsedMs s now < 5000 → ∀ p, getPreviousMP3 c s.currentFile = p → p ≠ "" →
        handlePrevious c now s = startTrack p now { s with currentFile := p })
    ∧ (5000 ≤ elapsedMs s now →
        handlePrevious c now s = startTrack s.currentFile now s) := by
  refine ⟨?_, ?_, ?_⟩
  · intro he hp; unfold handlePrevious; rw [if_pos he]; simp [hp]
  · intro he p hp hne; unfold handlePrevious; rw [if_pos he]; simp only [hp]
    rw [if_pos hne]
  · intro he; unfold handlePrevious; rw [if_neg (by omega)]

/-- Witness for C4: from a state with zero accumulated elapsed time started
at `t = 0`, a previous press at `now = 4999` ms jumps to the catalog-previous
track `/a.mp3`, while a press at `now = 5000` ms restarts the current track
`/b.mp3`. -/
theorem c4_witness :
    handlePrevious ["/a.mp3", "/b.mp3"] 4999 sampleState =
        startTrack "/a.mp3" 4999 { sampleState with currentFile := "/a.mp3" }
    ∧ handlePrevious ["/a.mp3", "/b.mp3"] 5000 sampleState =
        startTrack "/b.mp3" 5000 sampleState :=
  ⟨(c4_previous_button_policy ["/a.mp3", "/b.mp3"] 4999 sampleState).2.1 (by decide)
      "/a.mp3" (by decide) (by decide),
   (c4_previous_button_policy ["/a.mp3", "/b.mp3"] 5000 sampleState).2.2 (by decide)⟩

/-- C5.  In a control-loop iteration where the session is playing (audio
objects allocated, decoder running, not paused) and the decode step reports
the stream exhausted, the decoder is stopped and the track returned by
`getNextMP3` is started; when that query returns empty the same current
track is restarted — so the resulting state is always running again
(playback never halts at end of stream). -/
theorem c5_end_of_stream_advance (c : List String) (now : Nat) (s : PlayerState)
    (hA : s.hasAudio = true) (hR : s.running = true) (hP : s.inPause = false)
    (hC : s.currentFile ≠ "") :
    (getNextMP3 c s.currentFile = "" →
        serviceAudio c now false s =
          startTrack s.currentFile now { s with running := false })
    ∧ (∀ nx, getNextMP3 c s.currentFile = nx → nx ≠ "" →
        serviceAudio c now false s =
          startTrack nx now { s with running := false, currentFile := nx })
    ∧ (serviceAudio c now false s).running = true
    ∧ (serviceAudio c now false s).inPause = false := by
  have hsvc : serviceAudio c now false s =
      (if getNextMP3 c s.currentFile = "" then
        startTrack s.currentFile now { s with running := false }
      else
        startTrack (getNextMP3 c s.currentFile) now
          { s with running := false, currentFile := getNextMP3 c s.currentFile }) := by
    unfold serviceAudio
    rw [hA, hR, hP]
    simp
  refine ⟨?_, ?_, ?_, ?_⟩
  · intro h; rw [hsvc, if_pos h]
  · intro nx hnx hne; rw [hsvc, hnx, if_neg hne]
  · rw [hsvc]; split_ifs with h
    · unfold startTrack; rw [if_neg hC]
    · unfold startTrack; rw [if_neg h]
  · rw [hsvc]; split_ifs with h
    · unfold startTrack; rw [if_neg hC]
    · unfold startTrack; rw [if_neg h]

/-- Witness for C5, the spec's 3-entry scenario: end of stream with
`current = /c.mp3` in the catalog `[/a.mp3, /b.mp3, /c.mp3]` wraps around and
starts `/a.mp3`. -/
theorem c5_witness :
    serviceAudio ["/a.mp3", "/b.mp3", "/c.mp3"] 7 false
        { sampleState with currentFile := "/c.mp3" } =
      startTrack "/a.mp3" 7
        { sampleState with currentFile := "/a.mp3", running := false }
    ∧ (serviceAudio ["/a.mp3", "/b.mp3", "/c.mp3"] 7 false
        { sampleState with currentFile := "/c.mp3" }).currentFile = "/a.mp3" := by
  have h := (c5_end_of_stream_advance ["/a.mp3", "/b.mp3", "/c.mp3"] 7
      { sampleState with currentFile := "/c.mp3" } rfl rfl rfl (by decide)).2.1
      "/a.mp3" (by decide) (by decide)
  exact ⟨h, by rw [h]; decide⟩

/-! ## Claim theorems: button-event draining -/

lemma consumeButtons_flags (c : List String) (seekOk beginOk : Bool) (now pos : Nat)
    (fl : ButtonFlags) (s : PlayerState) :
    (consumeButtons c seekOk beginOk now pos fl s).1 = clearFirst fl := by
  unfold consumeButtons clearFirst
  split_ifs <;> rfl

lemma clearFirst_first_pending (fl : ButtonFlags) :
    ∀ i : Fin 7, flagAt (clearFirst fl) i.1 ≠ flagAt fl i.1 →
      flagAt fl i.1 = true ∧ flagAt (clearFirst fl) i.1 = false ∧
        ∀ j : Fin 7, j.1 < i.1 → flagAt fl j.1 = false := by
  obtain ⟨b0, b1, b2, b3, b4, b5, b6⟩ := fl
  cases b0 <;> cases b1 <;> cases b2 <;> cases b3 <;> cases b4 <;> cases b5 <;> cases b6 <;>
    decide

lemma clearFirst_others_kept (fl : ButtonFlags) :
    ∀ i j : Fin 7, flagAt (clearFirst fl) i.1 ≠ flagAt fl i.1 → j ≠ i →
      flagAt (clearFirst fl) j.1 = flagAt fl j.1 := by
  obtain ⟨b0, b1, b2, b3, b4, b5, b6⟩ := fl
  cases b0 <;> cases b1 <;> cases b2 <;> cases b3 <;> cases b4 <;> cases b5 <;> cases b6 <;>
    decide

/-- C6.  One `loop()` iteration consumes at most one pending button event,
the highest-priority pending one in the fixed order previous (0),
play/pause (1), next (2), record (3), volume-down (4), mute (5),
volume-up (6): any flag that changes was set, is now cleared, and had no
set flag before it in that order; every other flag is untouched.  When a
previous-button and a next-button event are pending together, the previous
branch runs and the next flag stays set for a later iteration. -/
theorem c6_one_event_per_iteration (c : List String) (loopOk seekOk beginOk : Bool)
    (now pos : Nat) (fl : ButtonFlags) (s : PlayerState) :
    (∀ i : Fin 7,
        flagAt (loopIteration c loopOk seekOk beginOk now pos fl s).1 i.1 ≠ flagAt fl i.1 →
          flagAt fl i.1 = true
          ∧ flagAt (loopIteration c loopOk seekOk beginOk now pos fl s).1 i.1 = false
          ∧ ∀ j : Fin 7, j.1 < i.1 → flagAt fl j.1 = false)
    ∧ (∀ i j : Fin 7,
        flagAt (loopIteration c loopOk seekOk beginOk now pos fl s).1 i.1 ≠ flagAt fl i.1 →
          j ≠ i →
          flagAt (loopIteration c loopOk seekOk beginOk now pos fl s).1 j.1 = flagAt fl j.1)
    ∧ (fl.btnPrevious = true → fl.btnNext = true →
        (loopIteration c loopOk seekOk beginOk now pos fl s).2 =
            handlePrevious c now (serviceAudio c now loopOk s)
          ∧ flagAt (loopIteration c loopOk seekOk beginOk now pos fl s).1 2 = true
          ∧ flagAt (loopIteration c loopOk seekOk beginOk now pos fl s).1 0 = false) := by
  unfold loopIteration
  rw [consumeButtons_flags]
  refine ⟨clearFirst_first_pending fl, clearFirst_others_kept fl, ?_⟩
  intro h0 h2
  refine ⟨?_, ?_, ?_⟩
  · unfold consumeButtons; rw [if_pos h0]
  · simp [clearFirst, h0, flagAt, h2]
  · simp [clearFirst, h0, flagAt]

/-- Witness for C6: with the previous and next flags both pending, the
iteration runs the previous branch, clears only the previous flag and
leaves the next flag pending. -/
theorem c6_witness :
    (loopIteration ["/a.mp3", "/b.mp3"] true true true 9 0
        { btnPrevious := true, btnPlayPause := false, btnNext := true, btnRec := false,
          btnVolDown := false, btnMute := false, btnVolUp := false } sampleState).2 =
      handlePrevious ["/a.mp3", "/b.mp3"] 9
        (serviceAudio ["/a.mp3", "/b.mp3"] 9 true sampleState)
    ∧ flagAt (loopIteration ["/a.mp3", "/b.mp3"] true true true 9 0
        { btnPrevious := true, btnPlayPause := false, btnNext := true, btnRec := false,
          btnVolDown := false, btnMute := false, btnVolUp := false } sampleState).1 2 = true
    ∧ flagAt (loopIteration ["/a.mp3", "/b.mp3"] true true true 9 0
        { btnPrevious := true, btnPlayPause := false, btnNext := true, btnRec := false,
          btnVolDown := false, btnMute := false, btnVolUp := false } sampleState).1 0 = false :=
  (c6_one_event_per_iteration ["/a.mp3", "/b.mp3"] true true true 9 0
      { btnPrevious := true, btnPlayPause := false, btnNext := true, btnRec := false,
        btnVolDown := false, btnMute := false, btnVolUp := false } sampleState).2.2 rfl rfl

/-! ## Claim theorems: sole-file catalog with case-mismatched current -/

/-- Counterexample to C1 as stated: for the catalog `[/song.MP3]` and
current identifier `/song.mp3`, `getNextMP3` does return empty, but
`getPreviousMP3` returns `/song.MP3` rather than empty — its wrap-around
sole-file check is case-sensitive. -/
theorem c1_counterexample :
    getNextMP3 ["/song.MP3"] "/song.mp3" = ""
    ∧ getPreviousMP3 ["/song.MP3"] "/song.mp3" = "/song.MP3"
    ∧ "/song.MP3" ≠ "" := by
  refine ⟨by decide, by decide, by decide⟩

/-- C1 (amended).  For a catalog whose sole media entry matches the current
identifier case-insensitively, `getNextMP3` returns empty (its sole-file
wrap-around check compares lower-cased names), while `getPreviousMP3`
returns the entry unless it equals the current identifier exactly: its
sole-file wrap-around check compares `previous == currentFile`
case-SENSITIVELY, so a case-mismatched current does not suppress the
result. -/
theorem c1_sole_file_case_checks (n cur : String) (hmp3 : isMP3Entry n = true)
    (hlow : lowerStr (normalizePath n) = lowerStr cur) :
    getNextMP3 [n] cur = ""
    ∧ getPreviousMP3 [n] cur =
        (if normalizePath n = cur then "" else normalizePath n) := by
  constructor
  · unfold getNextMP3
    simp [nextScan, wrapFirst, hlow, hmp3]
  · unfold getPreviousMP3 prevScan
    rw [if_pos hmp3, if_pos hlow]
    simp [hmp3, lastMP3]

/-- Witness for the amended C1 at the spec's scenario: `[/song.MP3]` with
current `/song.mp3`; the case-sensitive comparison in `getPreviousMP3` does
not fire, so the entry itself comes back. -/
theorem c1_witness :
    getNextMP3 ["/song.MP3"] "/song.mp3" = ""
    ∧ getPreviousMP3 ["/song.MP3"] "/song.mp3" =
        (if normalizePath "/song.MP3" = "/song.mp3" then ""
         else normalizePath "/song.MP3") :=
  c1_sole_file_case_checks "/song.MP3" "/song.mp3" (by decide) (by decide)

/-! ## Catalog walker: bridging the passes to the media sequence -/

lemma mediaEntries_cons (n : String) (rest : List String) :
    mediaEntries (n :: rest) =
      if isMP3Entry n then normalizePath n :: mediaEntries rest else mediaEntries rest := by
  simp only [mediaEntries, List.filter_cons]
  split_ifs with h <;> simp

lemma nextScan_found (cur : String) (c : List String) :
    nextScan cur true c = (mediaEntries c).head? := by
  induction c with
  | nil => rfl
  | cons n rest ih =>
    rw [mediaEntries_cons]
    by_cases h : isMP3Entry n = true
    · simp [nextScan, h]
    · simp [nextScan, h, ih]

lemma nextScan_search (cur : String) (c : List String) :
    nextScan cur false c = nextInEs cur (mediaEntries c) := by
  induction c with
  | nil => rfl
  | cons n rest ih =>
    rw [mediaEntries_cons]
    by_cases h : isMP3Entry n = true
    · by_cases h2 : lowerStr (normalizePath n) = cur
      · simp [nextScan, nextInEs, h, h2, nextScan_found]
      · simp [nextScan, nextInEs, h, h2, ih]
    · simp [nextScan, h, ih]

lemma wrapFirst_media (cur : String) (c : List String) :
    wrapFirst cur c = wrapInEs cur (mediaEntries c) := by
  induction c with
  | nil => rfl
  | cons n rest ih =>
    rw [mediaEntries_cons]
    by_cases h : isMP3Entry n = true
    · simp [wrapFirst, wrapInEs, h]
    · simp [wrapFirst, h, ih]

lemma prevScan_media (cur : String) (c : List String) :
    ∀ last, prevScan cur last c = prevInEs cur last (mediaEntries c) := by
  induction c with
  | nil => intro last; rfl
  | cons n rest ih =>
    intro last
    rw [mediaEntries_cons]
    by_cases h : isMP3Entry n = true
    · by_cases h2 : lowerStr (normalizePath n) = cur
      · simp [prevScan, prevInEs, h, h2]
      · simp [prevScan, prevInEs, h, h2, ih]
    · simp [prevScan, h, ih]

lemma lastMP3_media (c : List String) :
    ∀ acc, lastMP3 acc c = lastD acc (mediaEntries c) := by
  induction c with
  | nil => intro acc; rfl
  | cons n rest ih =>
    intro acc
    rw [mediaEntries_cons]
    by_cases h : isMP3Entry n = true
    · simp [lastMP3, lastD, h, ih]
    · simp [lastMP3, h, ih]

lemma getNextMP3_media (c : List String) (current : String) :
    getNextMP3 c current =
      (match nextInEs (lowerStr current) (mediaEntries c) with
       | some r => r
       | none => wrapInEs (lowerStr current) (mediaEntries c)) := by
  unfold getNextMP3
  rw [nextScan_search, wrapFirst_media]

lemma getPreviousMP3_media (c : List String) (current : String) :
    getPreviousMP3 c current =
      (let r := prevInEs (lowerStr current) "" (mediaEntries c)
       if r.1 = true ∧ r.2 ≠ "" then r.2
       else if lastD "" (mediaEntries c) = current then ""
            else lastD "" (mediaEntries c)) := by
  simp only [getPreviousMP3, prevScan_media, lastMP3_media]

/-! ## Catalog walker: positional behaviour on the media sequence -/

lemma media_lower_inj (es : List String) (hnd : (es.map lowerStr).Nodup)
    {i j : Nat} (hi : i < es.length) (hj : j < es.length)
    (h : lowerStr es[i] = lowerStr es[j]) : i = j := by
  have hi2 : i < (es.map lowerStr).length := by simpa using hi
  have hj2 : j < (es.map lowerStr).length := by simpa using hj
  have h2 : (es.map lowerStr)[i] = (es.map lowerStr)[j] := by
    simpa [List.getElem_map] using h
  exact hnd.getElem_inj_iff.1 h2

lemma nextInEs_at (es : List String) (i : Nat) (hi : i < es.length)
    (hnd : (es.map lowerStr).Nodup) :
    nextInEs (lowerStr es[i]) es =
      if h : i + 1 < es.length then some es[i + 1] else none := by
  induction es generalizing i with
  | nil => simp at hi
  | cons e rest ih =>
    match i with
    | 0 =>
      simp only [List.getElem_cons_zero, nextInEs, if_pos rfl]
      cases rest with
      | nil => simp
      | cons b t => simp
    | Nat.succ j =>
      have hj : j < rest.length := by
        simp only [List.length_cons] at hi; omega
      have hnd2 : (rest.map lowerStr).Nodup := by
        rw [List.map_cons] at hnd; exact hnd.of_cons
      have hne : ¬ lowerStr e = lowerStr rest[j] := by
        intro hEq
        have h0 : (0 : Nat) = j + 1 :=
          media_lower_inj (e :: rest) hnd (by simp) hi
            (by simpa [List.getElem_cons_succ] using hEq)
        omega
      show nextInEs (lowerStr (e :: rest)[j + 1]) (e :: rest) = _
      simp only [List.getElem_cons_succ]
      simp only [nextInEs]
      rw [if_neg hne, ih j hj hnd2]
      simp only [List.length_cons]
      by_cases hlt : j + 1 < rest.length
      · rw [dif_pos hlt, dif_pos (by omega)]
      · rw [dif_neg hlt, dif_neg (by omega)]

lemma prevInEs_at (es : List String) (i : Nat) (hi : i < es.length)
    (hnd : (es.map lowerStr).Nodup) :
    ∀ last, prevInEs (lowerStr es[i]) last es =
      (true, if i = 0 then last else es[i - 1]) := by
  induction es generalizing i with
  | nil => simp at hi
  | cons e rest ih =>
    intro last
    match i with
    | 0 => simp [prevInEs]
    | Nat.succ j =>
      have hj : j < rest.length := by
        simp only [List.length_cons] at hi; omega
      have hnd2 : (rest.map lowerStr).Nodup := by
        rw [List.map_cons] at hnd; exact hnd.of_cons
      have hne : ¬ lowerStr e = lowerStr rest[j] := by
        intro hEq
        have h0 : (0 : Nat) = j + 1 :=
          media_lower_inj (e :: rest) hnd (by simp) hi
            (by simpa [List.getElem_cons_succ] using hEq)
        omega
      show prevInEs (lowerStr (e :: rest)[j + 1]) last (e :: rest) = _
      simp only [List.getElem_cons_succ]
      simp only [prevInEs]
      rw [if_neg hne, ih j hj hnd2 e]
      match j with
      | 0 => simp
      | Nat.succ k => simp

lemma lastD_at (es : List String) (h : 0 < es.length) :
    ∀ acc, lastD acc es = es[es.length - 1] := by
  induction es with
  | nil => simp at h
  | cons e rest ih =>
    intro acc
    cases rest with
    | nil => rfl
    | cons b t =>
      show lastD e (b :: t) = _
      rw [ih (by simp) e]
      have hlen : (e :: b :: t).length - 1 = ((b :: t).length - 1) + 1 := by
        simp
      simp only [hlen, List.getElem_cons_succ]

lemma wrapInEs_at (cur : String) (es : List String) (h : 0 < es.length) :
    wrapInEs cur es = if lowerStr es[0] = cur then "" else es[0] := by
  cases es with
  | nil => simp at h
  | cons e rest => rfl

lemma mediaEntries_ne_empty (c : List String) {e : String}
    (he : e ∈ mediaEntries c) : e ≠ "" := by
  unfold mediaEntries at he
  obtain ⟨n, hn, rfl⟩ := List.mem_map.1 he
  have hmp3 : isMP3Entry n = true := by
    simpa using (List.mem_filter.1 hn).2
  intro h0
  unfold isMP3Entry at hmp3
  rw [h0] at hmp3
  exact absurd hmp3 (by decide)

/-! ## Claim theorems: track enumeration -/

/-- C2.  For a catalog whose media entries (in enumeration order,
case-insensitively distinct as directory entries of one listing) are
e₁ … e_N: `getNextMP3` maps eᵢ to e_{i+1} for i < N, wraps e_N around to
e₁ when N ≥ 2, and returns empty on a sole media entry (N = 1). -/
theorem c2_next_track_enumeration (c : List String) (i : Nat)
    (hnd : ((mediaEntries c).map lowerStr).Nodup)
    (hi : i < (mediaEntries c).length) :
    (∀ h : i + 1 < (mediaEntries c).length,
        getNextMP3 c (mediaEntries c)[i] = (mediaEntries c)[i + 1])
    ∧ (i + 1 = (mediaEntries c).length → 2 ≤ (mediaEntries c).length →
        getNextMP3 c (mediaEntries c)[i] = (mediaEntries c)[0])
    ∧ ((mediaEntries c).length = 1 → getNextMP3 c (mediaEntries c)[i] = "") := by
  refine ⟨?_, ?_, ?_⟩
  · intro h
    have hmain := getNextMP3_media c ((mediaEntries c)[i])
    rw [nextInEs_at (mediaEntries c) i hi hnd, dif_pos h] at hmain
    exact hmain
  · intro h1 h2
    have hmain := getNextMP3_media c ((mediaEntries c)[i])
    rw [nextInEs_at (mediaEntries c) i hi hnd, dif_neg (by omega)] at hmain
    have hmain2 : getNextMP3 c (mediaEntries c)[i] =
        wrapInEs (lowerStr (mediaEntries c)[i]) (mediaEntries c) := hmain
    rw [wrapInEs_at _ _ (by omega)] at hmain2
    have hne : ¬ lowerStr (mediaEntries c)[0] = lowerStr (mediaEntries c)[i] := by
      intro hEq
      have h0 := media_lower_inj _ hnd (by omega) hi hEq
      omega
    rw [if_neg hne] at hmain2
    exact hmain2
  · intro hlen
    have hi0 : i = 0 := by omega
    subst hi0
    have hmain := getNextMP3_media c ((mediaEntries c)[0])
    rw [nextInEs_at (mediaEntries c) 0 hi hnd, dif_neg (by omega)] at hmain
    have hmain2 : getNextMP3 c (mediaEntries c)[0] =
        wrapInEs (lowerStr (mediaEntries c)[0]) (mediaEntries c) := hmain
    rw [wrapInEs_at _ _ (by omega), if_pos rfl] at hmain2
    exact hmain2

/-- Witness for C2 at the spec's 3-entry scenario plus the wrap-around and
sole-file cases. -/
theorem c2_witness :
    getNextMP3 ["/a.mp3", "/b.mp3", "/c.mp3"] "/b.mp3" = "/c.mp3"
    ∧ getNextMP3 ["/a.mp3", "/b.mp3", "/c.mp3"] "/c.mp3" = "/a.mp3"
    ∧ getNextMP3 ["/solo.mp3"] "/solo.mp3" = "" :=
  ⟨(c2_next_track_enumeration ["/a.mp3", "/b.mp3", "/c.mp3"] 1
      (by decide) (by decide)).1 (by decide),
   (c2_next_track_enumeration ["/a.mp3", "/b.mp3", "/c.mp3"] 2
      (by decide) (by decide)).2.1 (by decide) (by decide),
   (c2_next_track_enumeration ["/solo.mp3"] 0
      (by decide) (by decide)).2.2 (by decide)⟩

/-- C3.  For a catalog whose media entries (in enumeration order,
case-insensitively distinct) are e₁ … e_N: `getPreviousMP3` maps eᵢ to
e_{i-1} for i > 1, wraps e₁ around to e_N when N ≥ 2, and returns empty on
a sole media entry (N = 1). -/
theorem c3_previous_track_enumeration (c : List String) (i : Nat)
    (hnd : ((mediaEntries c).map lowerStr).Nodup)
    (hi : i < (mediaEntries c).length) :
    (1 ≤ i → getPreviousMP3 c (mediaEntries c)[i] = (mediaEntries c)[i - 1])
    ∧ (2 ≤ (mediaEntries c).length →
        getPreviousMP3 c (mediaEntries c)[0] =
          (mediaEntries c)[(mediaEntries c).length - 1])
    ∧ ((mediaEntries c).length = 1 → getPreviousMP3 c (mediaEntries c)[i] = "") := by
  refine ⟨?_, ?_, ?_⟩
  · intro h1
    have hmain := getPreviousMP3_media c ((mediaEntries c)[i])
    rw [prevInEs_at (mediaEntries c) i hi hnd, if_neg (show ¬ i = 0 by omega)] at hmain
    have hne : (mediaEntries c)[i - 1] ≠ "" :=
      mediaEntries_ne_empty c (List.getElem_mem (by omega))
    simp only [ne_eq] at hmain
    simp [hne] at hmain
    exact hmain
  · intro h2
    have hmain := getPreviousMP3_media c ((mediaEntries c)[0])
    rw [prevInEs_at (mediaEntries c) 0 (by omega) hnd, if_pos rfl] at hmain
    rw [lastD_at (mediaEntries c) (by omega)] at hmain
    have hes : (mediaEntries c).Nodup := List.Nodup.of_map _ hnd
    have hne : ¬ (mediaEntries c)[(mediaEntries c).length - 1] = (mediaEntries c)[0] := by
      intro hEq
      have h0 := hes.getElem_inj_iff.1 hEq
      omega
    simp [hne] at hmain
    exact hmain
  · intro hlen
    have hi0 : i = 0 := by omega
    subst hi0
    have hmain := getPreviousMP3_media c ((mediaEntries c)[0])
    rw [prevInEs_at (mediaEntries c) 0 hi hnd, if_pos rfl] at hmain
    rw [lastD_at (mediaEntries c) (by omega)] at hmain
    have hidx : (mediaEntries c).length - 1 = 0 := by omega
    simp only [hidx] at hmain
    simp at hmain
    exact hmain

/-- Witness for C3 at the spec's 3-entry scenario plus the wrap-around and
sole-file cases. -/
theorem c3_witness :
    getPreviousMP3 ["/a.mp3", "/b.mp3", "/c.mp3"] "/b.mp3" = "/a.mp3"
    ∧ getPreviousMP3 ["/a.mp3", "/b.mp3", "/c.mp3"] "/a.mp3" = "/c.mp3"
    ∧ getPreviousMP3 ["/solo.mp3"] "/solo.mp3" = "" :=
  ⟨(c3_previous_track_enumeration ["/a.mp3", "/b.mp3", "/c.mp3"] 1
      (by decide) (by decide)).1 (by decide),
   (c3_previous_track_enumeration ["/a.mp3", "/b.mp3", "/c.mp3"] 0
      (by decide) (by decide)).2.1 (by decide),
   (c3_previous_track_enumeration ["/solo.mp3"] 0
      (by decide) (by decide)).2.2 (by decide)⟩

end MP3Player
